import Mathlib

/-
Verification of the bevy states example in src/app.rs.

The program defines a two-valued application state (Menu, InGame), a
create_app function registering systems into engine schedules, a menu
button handler, a cleanup system for the menu UI, a sprite movement
system driven by arrow keys, and a sprite color oscillation system.
Each Rust system is embedded as a Lean function over explicit inputs
(queries become lists, resources become arguments, floats become reals,
exact decimal literals become rationals where only equality is needed).
-/

/-- The application state enumeration from src/app.rs lines 35-40:
two constructors, Menu first. -/
inductive AppState
  | Menu
  | InGame
  deriving DecidableEq, Repr

/-- The attribute on the Menu constructor in the source marks it as the
default value of the state type. -/
instance : Inhabited AppState := ⟨AppState.Menu⟩

/-- Bevy button interaction values matched in the menu system. -/
inductive Interaction
  | Pressed
  | Hovered
  | None
  deriving DecidableEq, Repr

/-- A color as the srgb triple used for the button background constants.
The decimal literals of the source are represented exactly as rationals. -/
structure Color where
  red : ℚ
  green : ℚ
  blue : ℚ
  deriving DecidableEq, Repr

def NORMAL_BUTTON : Color := ⟨0.15, 0.15, 0.15⟩

def HOVERED_BUTTON : Color := ⟨0.25, 0.25, 0.25⟩

def PRESSED_BUTTON : Color := ⟨0.35, 0.75, 0.35⟩

/-- The menu system, src/app.rs lines 98-119: fold over the changed-button
query; a Pressed interaction recolors the button to PRESSED_BUTTON and sets
the next state to InGame, Hovered and None only recolor.  The first
component is the NextState resource value (none when no request pending),
the second the updated background colors in query order. -/
def menu : Option AppState → List Interaction → Option AppState × List Color
  | next, [] => (next, [])
  | next, i :: rest =>
    match i with
    | Interaction.Pressed =>
      let r := menu (some AppState.InGame) rest
      (r.1, PRESSED_BUTTON :: r.2)
    | Interaction.Hovered =>
      let r := menu next rest
      (r.1, HOVERED_BUTTON :: r.2)
    | Interaction.None =>
      let r := menu next rest
      (r.1, NORMAL_BUTTON :: r.2)

/-- Identifiers for the system functions registered by create_app. -/
inductive SystemId
  | setup
  | setup_menu
  | menu
  | cleanup_menu
  | setup_game
  | movement
  | change_color
  | log_transitions
  deriving DecidableEq, Repr

/-- The engine schedules used by create_app. -/
inductive Schedule
  | Startup
  | OnEnter (s : AppState)
  | OnExit (s : AppState)
  | Update
  deriving DecidableEq, Repr

/-- One add_systems registration: schedule, system, and the state of an
in_state run condition when present. -/
structure Registration where
  schedule : Schedule
  system : SystemId
  runIf : Option AppState
  deriving DecidableEq, Repr

/-- The app as far as the claims observe it: current state resource,
pending next-state request, and the registered systems. -/
structure AppModel where
  state : AppState
  nextState : Option AppState
  registrations : List Registration

/-- create_app, src/app.rs lines 10-33: init_state inserts the default
state value and no pending request; the registrations follow the
add_systems calls in source order. -/
def create_app : AppModel :=
  ⟨default, none,
    [⟨Schedule.Startup, SystemId.setup, none⟩,
     ⟨Schedule.OnEnter AppState.Menu, SystemId.setup_menu, none⟩,
     ⟨Schedule.Update, SystemId.menu, some AppState.Menu⟩,
     ⟨Schedule.OnExit AppState.Menu, SystemId.cleanup_menu, none⟩,
     ⟨Schedule.OnEnter AppState.InGame, SystemId.setup_game, none⟩,
     ⟨Schedule.Update, SystemId.movement, some AppState.InGame⟩,
     ⟨Schedule.Update, SystemId.change_color, some AppState.InGame⟩,
     ⟨Schedule.Update, SystemId.log_transitions, none⟩]⟩

/-- Which registered system functions take the mutable NextState resource,
read off the source signatures: only the menu system (line 99) does; setup,
setup_menu, cleanup_menu, setup_game, movement, change_color and the logging
system take no NextState parameter. -/
def takesNextState : SystemId → Bool
  | SystemId.menu => true
  | _ => false

/-- Modelled from the spec: the body of log_transitions lives in the
engine's dev_tools crate, not under src/; the spec says the logging
callback reads at most one state-transition event per frame and logs it.
Input: the frame's pending (exited, entered) transition events; output:
the transitions actually logged. -/
def log_transitions (events : List (AppState × AppState)) :
    List (AppState × AppState) :=
  match events.getLast? with
  | none => []
  | some e => [e]

/-- Helper: the next-state value produced by the menu fold is InGame
exactly when some interaction in the query is Pressed. -/
theorem menu_fst (next : Option AppState) (q : List Interaction) :
    (menu next q).1 =
      if q.any (fun i => decide (i = Interaction.Pressed)) then
        some AppState.InGame
      else next := by
  induction q generalizing next with
  | nil => rfl
  | cons i rest ih =>
    cases i <;> simp [menu, ih]

/-- Helper: the colors written by the menu fold are determined pointwise
by the interaction values. -/
theorem menu_snd (next : Option AppState) (q : List Interaction) :
    (menu next q).2 = q.map (fun i =>
      match i with
      | Interaction.Pressed => PRESSED_BUTTON
      | Interaction.Hovered => HOVERED_BUTTON
      | Interaction.None => NORMAL_BUTTON) := by
  induction q generalizing next with
  | nil => rfl
  | cons i rest ih =>
    cases i <;> simp [menu, ih]

/-- Claim C1: the application starts in Menu.  The state enumeration has
exactly the values Menu and InGame, its default is Menu, the state
resource created by create_app holds Menu, and no next-state request is
pending before any transition is reconciled. -/
theorem c1_initial_state :
    create_app.state = AppState.Menu ∧
    (default : AppState) = AppState.Menu ∧
    (∀ s : AppState, s = AppState.Menu ∨ s = AppState.InGame) ∧
    AppState.Menu ≠ AppState.InGame ∧
    create_app.nextState = none := by
  refine ⟨rfl, rfl, ?_, by decide, rfl⟩
  intro s
  cases s
  · exact Or.inl rfl
  · exact Or.inr rfl

/-- Claim C2: the menu handler, registered to run only while in Menu,
requests the state change to InGame whenever the observed input is the
designated one (a Pressed interaction on the button), and leaves the
next-state request untouched on every query containing no such input. -/
theorem c2_menu_requests (next : Option AppState) (q : List Interaction) :
    ((∃ i ∈ q, i = Interaction.Pressed) →
      (menu next q).1 = some AppState.InGame) ∧
    ((∀ i ∈ q, i ≠ Interaction.Pressed) → (menu next q).1 = next) ∧
    (⟨Schedule.Update, SystemId.menu, some AppState.Menu⟩ : Registration) ∈
      create_app.registrations := by
  refine ⟨?_, ?_, by decide⟩
  · intro h
    rw [menu_fst, if_pos]
    simp only [List.any_eq_true, decide_eq_true_eq]
    obtain ⟨i, hi, hp⟩ := h
    exact ⟨i, hi, hp⟩
  · intro h
    rw [menu_fst, if_neg]
    simp only [List.any_eq_true, decide_eq_true_eq, not_exists, not_and]
    intro i hi
    exact h i hi

/-- Witness for C2 at concrete queries: a Pressed interaction yields the
InGame request, a Hovered-only query leaves the request empty. -/
theorem c2_menu_requests_witness :
    (menu none [Interaction.Pressed]).1 = some AppState.InGame ∧
    (menu none [Interaction.Hovered]).1 = none :=
  ⟨(c2_menu_requests none [Interaction.Pressed]).1
      ⟨Interaction.Pressed, by decide, rfl⟩,
   (c2_menu_requests none [Interaction.Hovered]).2.1 (by decide)⟩

/-- Counterexample to claim C3: no registration of create_app that runs
while in InGame has a system taking the NextState resource, so no
registered game-input handler can request the transition back to Menu. -/
theorem c3_counterexample :
    ¬ ∃ r ∈ create_app.registrations,
        r.runIf = some AppState.InGame ∧ takesNextState r.system = true := by
  decide

/-- Claim C3 amended: the update systems registered under the InGame run
condition are exactly movement and change_color, and neither takes the
NextState resource: the code registers no game-input handler, so InGame
to Menu is not reachable through the registered update systems. -/
theorem c3_ingame_systems (r : Registration)
    (hr : r ∈ create_app.registrations)
    (hs : r.runIf = some AppState.InGame) :
    (r.system = SystemId.movement ∨ r.system = SystemId.change_color) ∧
    takesNextState r.system = false := by
  simp only [create_app, List.mem_cons, List.not_mem_nil, or_false] at hr
  rcases hr with rfl | rfl | rfl | rfl | rfl | rfl | rfl | rfl <;>
    simp_all <;> decide

/-- Witness for the amended C3 at the movement registration. -/
theorem c3_ingame_systems_witness :
    takesNextState SystemId.movement = false :=
  (c3_ingame_systems
    ⟨Schedule.Update, SystemId.movement, some AppState.InGame⟩
    (by decide) (by decide)).2

/-- Claim C7: the logging callback is registered in the Update schedule
and logs at most one state-transition event per frame. -/
theorem c7_log_at_most_one :
    (∀ events : List (AppState × AppState),
      (log_transitions events).length ≤ 1) ∧
    (⟨Schedule.Update, SystemId.log_transitions, none⟩ : Registration) ∈
      create_app.registrations := by
  refine ⟨?_, by decide⟩
  intro events
  unfold log_transitions
  cases events.getLast? <;> simp

/-- Claim C8: for every changed button the menu handler writes the
background color determined by the interaction value, with the three
constant colors of the source, and the next-state request becomes InGame
exactly when a Pressed interaction is in the query. -/
theorem c8_menu_colors (next : Option AppState) (q : List Interaction) :
    ((menu next q).2 = q.map (fun i =>
      match i with
      | Interaction.Pressed => PRESSED_BUTTON
      | Interaction.Hovered => HOVERED_BUTTON
      | Interaction.None => NORMAL_BUTTON)) ∧
    PRESSED_BUTTON = ⟨0.35, 0.75, 0.35⟩ ∧
    HOVERED_BUTTON = ⟨0.25, 0.25, 0.25⟩ ∧
    NORMAL_BUTTON = ⟨0.15, 0.15, 0.15⟩ ∧
    ((menu next q).1 =
      if q.any (fun i => decide (i = Interaction.Pressed)) then
        some AppState.InGame
      else next) :=
  ⟨menu_snd next q, rfl, rfl, rfl, menu_fst next q⟩

/-- Components attached to the entities this program spawns: the camera,
the menu UI node, button and text, and the game sprite. -/
inductive Comp
  | Node
  | Button
  | Text
  | Camera
  | Sprite
  deriving DecidableEq, Repr

/-- One live entity: its id, its parent entity when spawned as a child,
and its components. -/
structure EntityRow where
  id : Nat
  parent : Option Nat
  comps : List Comp
  deriving DecidableEq, Repr

/-- Fuel-bounded walk up the parent chain: does entity e lie in the
subtree rooted at root? -/
def isAncestorWithin (w : List EntityRow) :
    Nat → Nat → Nat → Bool
  | 0, _, _ => false
  | Nat.succ fuel, root, e =>
    decide (e = root) ||
      match (w.find? (fun r => decide (r.id = e))).bind EntityRow.parent with
      | none => false
      | some p => isAncestorWithin w fuel root p

/-- e is root itself or a descendant of root through parent links. -/
def inSubtree (w : List EntityRow) (root e : Nat) : Bool :=
  isAncestorWithin w (w.length + 1) root e

/-- The engine's despawn_recursive on the world: remove the entity and
every descendant. -/
def despawn_recursive (w : List EntityRow) (root : Nat) : List EntityRow :=
  w.filter (fun r => !(inSubtree w root r.id))

/-- The MenuData resource, src/app.rs lines 42-45: the single stored
button entity. -/
structure MenuData where
  button_entity : Nat
  deriving DecidableEq, Repr

/-- cleanup_menu, src/app.rs lines 121-123: recursively despawn the one
entity stored in the MenuData resource. -/
def cleanup_menu (menu_data : MenuData) (w : List EntityRow) :
    List EntityRow :=
  despawn_recursive w menu_data.button_entity

/-- The behavior claim C5 attributes to the teardown: query and despawn
every entity carrying the marker component m.  Written from the claim's
words, for comparison with cleanup_menu. -/
def cleanup_menu_claimed (m : Comp) (w : List EntityRow) : List EntityRow :=
  w.filter (fun r => !(r.comps.any (fun c => decide (c = m))))

/-- A world with a UI node outside the stored button's subtree: entity 0
is a detached node, entity 1 the stored menu root, entity 2 its button
child. -/
def wC5 : List EntityRow :=
  [⟨0, none, [Comp.Node]⟩,
   ⟨1, none, [Comp.Node]⟩,
   ⟨2, some 1, [Comp.Node, Comp.Button]⟩]

/-- A world as the running app produces it: camera, menu root node 1,
button 2 under it, text 3 under the button. -/
def wApp : List EntityRow :=
  [⟨0, none, [Comp.Camera]⟩,
   ⟨1, none, [Comp.Node]⟩,
   ⟨2, some 1, [Comp.Node, Comp.Button]⟩,
   ⟨3, some 2, [Comp.Node, Comp.Text]⟩]

/-- Counterexample to claim C5: on world wC5 with the stored button
entity 1, cleanup_menu agrees with despawning all carriers of a marker
component for no choice of marker: the code despawns by the stored
entity reference, not by a marker query. -/
theorem c5_counterexample :
    cleanup_menu ⟨1⟩ wC5 ≠ cleanup_menu_claimed Comp.Node wC5 ∧
    cleanup_menu ⟨1⟩ wC5 ≠ cleanup_menu_claimed Comp.Button wC5 ∧
    cleanup_menu ⟨1⟩ wC5 ≠ cleanup_menu_claimed Comp.Text wC5 ∧
    cleanup_menu ⟨1⟩ wC5 ≠ cleanup_menu_claimed Comp.Camera wC5 ∧
    cleanup_menu ⟨1⟩ wC5 ≠ cleanup_menu_claimed Comp.Sprite wC5 := by
  decide

/-- Claim C5 amended: the Menu on-exit callback destroys the menu UI by
recursively despawning the single entity stored in the MenuData
resource: after it runs, no entity of that subtree remains, and every
entity outside the subtree survives. -/
theorem c5_cleanup_subtree (md : MenuData) (w : List EntityRow) :
    (∀ r ∈ cleanup_menu md w, inSubtree w md.button_entity r.id = false) ∧
    (∀ r ∈ w, inSubtree w md.button_entity r.id = false →
      r ∈ cleanup_menu md w) := by
  constructor
  · intro r hr
    simp only [cleanup_menu, despawn_recursive, List.mem_filter,
      Bool.not_eq_eq_eq_not, Bool.not_true] at hr
    exact hr.2
  · intro r hr h
    simp only [cleanup_menu, despawn_recursive, List.mem_filter]
    exact ⟨hr, by simp [h]⟩

/-- Witness for the amended C5 on the realistic world wApp: the camera
survives the teardown, and the whole menu subtree is gone. -/
theorem c5_cleanup_subtree_witness :
    (⟨0, none, [Comp.Camera]⟩ : EntityRow) ∈ cleanup_menu ⟨1⟩ wApp :=
  (c5_cleanup_subtree ⟨1⟩ wApp).2
    ⟨0, none, [Comp.Camera]⟩ (by decide) (by decide)

/-- A 3-component vector over the reals, standing in for the f32 Vec3 of
the source (floats idealized as reals). -/
structure Vec3 where
  x : ℝ
  y : ℝ
  z : ℝ

def Vec3.zero : Vec3 := ⟨0, 0, 0⟩

def Vec3.add (a b : Vec3) : Vec3 := ⟨a.x + b.x, a.y + b.y, a.z + b.z⟩

def Vec3.smul (c : ℝ) (v : Vec3) : Vec3 := ⟨c * v.x, c * v.y, c * v.z⟩

noncomputable instance : DecidableEq Vec3 := fun _ _ => Classical.dec _

/-- Euclidean length of a vector. -/
noncomputable def normV (v : Vec3) : ℝ :=
  Real.sqrt (v.x ^ 2 + v.y ^ 2 + v.z ^ 2)

/-- Vector normalization as in glam: the vector scaled by the reciprocal
of its length. -/
noncomputable def normalizeV (v : Vec3) : Vec3 :=
  Vec3.smul (1 / normV v) v

def SPEED : ℝ := 100

/-- The arrow-key press state read by the movement system. -/
structure ArrowKeys where
  left : Bool
  right : Bool
  up : Bool
  down : Bool

/-- The direction accumulation of src/app.rs lines 139-151: start from
zero, subtract one from x on left, add one on right, add one to y on up,
subtract one on down; z is never touched. -/
def dirOf (k : ArrowKeys) : Vec3 :=
  let x1 : ℝ := if k.left then 0 - 1 else 0
  let x2 : ℝ := if k.right then x1 + 1 else x1
  let y1 : ℝ := if k.up then 0 + 1 else 0
  let y2 : ℝ := if k.down then y1 - 1 else y1
  ⟨x2, y2, 0⟩

/-- The per-transform body of the movement system, src/app.rs lines
138-156: when the accumulated direction is nonzero, add
normalize(direction) * SPEED * delta to the translation, else leave it. -/
noncomputable def movementStep (k : ArrowKeys) (delta : ℝ) (t : Vec3) :
    Vec3 :=
  if dirOf k = Vec3.zero then t
  else Vec3.add t (Vec3.smul delta (Vec3.smul SPEED (normalizeV (dirOf k))))

/-- The movement system over the sprite query. -/
noncomputable def movement (k : ArrowKeys) (delta : ℝ) (q : List Vec3) :
    List Vec3 :=
  q.map (movementStep k delta)

/-- A color in the engine's linear RGBA representation, channels as
reals. -/
structure LinearRgba where
  red : ℝ
  green : ℝ
  blue : ℝ
  alpha : ℝ

/-- The struct update of src/app.rs lines 159-168 applied to one sprite
color: replace the blue channel by sin(elapsed * 0.5) + 2, keep red,
green and alpha. -/
noncomputable def changeColorStep (elapsed : ℝ) (s : LinearRgba) :
    LinearRgba :=
  ⟨s.red, s.green, Real.sin (elapsed * 0.5) + 2, s.alpha⟩

/-- The change_color system over the sprite query. -/
noncomputable def change_color (elapsed : ℝ) (q : List LinearRgba) :
    List LinearRgba :=
  q.map (changeColorStep elapsed)

/-- Helper: the z component accumulated by dirOf is always zero. -/
theorem dirOf_z (k : ArrowKeys) : (dirOf k).z = 0 := rfl

/-- Helper: nested scalings collapse to one product. -/
theorem Vec3.smul_smul (a b : ℝ) (v : Vec3) :
    Vec3.smul a (Vec3.smul b v) = Vec3.smul (a * b) v := by
  simp only [Vec3.smul, Vec3.mk.injEq]
  refine ⟨by ring, by ring, by ring⟩

/-- Counterexample to claim C4: with the left and right arrow keys both
pressed (so at least one arrow key is pressed), the accumulated
direction is the zero vector — refuting the claim's identification of
zero direction with no key pressed — and the translation is left
unchanged: it is displaced by SPEED times a normalized (unit-length)
direction times the frame delta for no unit vector at all. -/
theorem c4_counterexample :
    (⟨true, true, false, false⟩ : ArrowKeys).left = true ∧
    dirOf ⟨true, true, false, false⟩ = Vec3.zero ∧
    movement ⟨true, true, false, false⟩ 1 [⟨0, 0, 0⟩] = [⟨0, 0, 0⟩] ∧
    ¬ ∃ u : Vec3, normV u = 1 ∧
        Vec3.add ⟨0, 0, 0⟩ (Vec3.smul (SPEED * 1) u) = ⟨0, 0, 0⟩ := by
  have hd : dirOf ⟨true, true, false, false⟩ = Vec3.zero := by
    simp [dirOf, Vec3.zero]
  refine ⟨rfl, hd, ?_, ?_⟩
  · simp [movement, movementStep, hd]
  · rintro ⟨u, hn, he⟩
    have hx : u.x = 0 := by
      have h := congrArg Vec3.x he
      simp [Vec3.add, Vec3.smul, SPEED] at h
      linarith
    have hy : u.y = 0 := by
      have h := congrArg Vec3.y he
      simp [Vec3.add, Vec3.smul, SPEED] at h
      linarith
    have hz : u.z = 0 := by
      have h := congrArg Vec3.z he
      simp [Vec3.add, Vec3.smul, SPEED] at h
      linarith
    rw [normV, hx, hy, hz] at hn
    norm_num at hn

/-- Claim C4 amended: whenever the accumulated arrow-key direction is
nonzero, the movement system displaces every sprite translation by
exactly 100 * delta times the normalized direction; whenever the
direction is the zero vector (no arrow key pressed, or opposing keys
cancelling), every translation is unchanged. -/
theorem c4_movement_formula (k : ArrowKeys) (delta : ℝ) (q : List Vec3) :
    (dirOf k ≠ Vec3.zero →
      movement k delta q = q.map (fun t =>
        Vec3.add t (Vec3.smul (100 * delta) (normalizeV (dirOf k))))) ∧
    (dirOf k = Vec3.zero → movement k delta q = q) := by
  constructor
  · intro h
    unfold movement
    refine List.map_congr_left ?_
    intro t _
    rw [movementStep, if_neg h, Vec3.smul_smul,
      show delta * SPEED = 100 * delta from by
        simp only [SPEED]
        ring]
  · intro h
    unfold movement
    have : movementStep k delta = fun t => t := by
      funext t
      rw [movementStep, if_pos h]
    rw [this, List.map_id']

/-- Witness for the amended C4: with only the up arrow pressed, delta 2
and a sprite at the origin, the sprite moves to (0, 200, 0). -/
theorem c4_movement_formula_witness :
    movement ⟨false, false, true, false⟩ 2 [⟨0, 0, 0⟩] =
      [⟨0, 200, 0⟩] := by
  have hd : dirOf ⟨false, false, true, false⟩ = Vec3.mk 0 1 0 := by
    simp [dirOf]
  have hne : dirOf ⟨false, false, true, false⟩ ≠ Vec3.zero := by
    rw [hd]
    intro hc
    have := congrArg Vec3.y hc
    simp [Vec3.zero] at this
  have h := (c4_movement_formula ⟨false, false, true, false⟩ 2 [⟨0, 0, 0⟩]).1 hne
  rw [h, hd]
  have hnorm : normV (Vec3.mk 0 1 0) = 1 := by
    rw [normV]
    norm_num
  simp [normalizeV, hnorm, Vec3.smul, Vec3.add]
  norm_num

/-- Claim C6: the change_color system recomputes every sprite's blue
channel as the sine wave sin(elapsed * 0.5) + 2 of elapsed time. -/
theorem c6_change_color_blue (elapsed : ℝ) (q : List LinearRgba) :
    (change_color elapsed q).map LinearRgba.blue =
      q.map (fun _ => Real.sin (elapsed * 0.5) + 2) := by
  simp only [change_color, List.map_map]
  rfl

/-- Claim C9: the change_color system modifies only the blue channel:
red, green and alpha of every sprite color are unchanged. -/
theorem c9_change_color_preserves (elapsed : ℝ) (q : List LinearRgba) :
    (change_color elapsed q).map LinearRgba.red = q.map LinearRgba.red ∧
    (change_color elapsed q).map LinearRgba.green = q.map LinearRgba.green ∧
    (change_color elapsed q).map LinearRgba.alpha = q.map LinearRgba.alpha := by
  refine ⟨?_, ?_, ?_⟩ <;> simp only [change_color, List.map_map] <;> rfl

/-- Claim C10: the movement system never changes the z component of any
sprite translation: the accumulated direction always has z = 0, so
displacement stays in the x-y plane. -/
theorem c10_movement_z (k : ArrowKeys) (delta : ℝ) (q : List Vec3) :
    (movement k delta q).map Vec3.z = q.map Vec3.z := by
  unfold movement
  rw [List.map_map]
  refine List.map_congr_left ?_
  intro t _
  show (movementStep k delta t).z = t.z
  rw [movementStep]
  by_cases h : dirOf k = Vec3.zero
  · rw [if_pos h]
  · rw [if_neg h]
    simp [Vec3.add, Vec3.smul, normalizeV, dirOf_z]
